import Mathlib

/-!
A verification development for the HeatStack 1-D transient heat-conduction
core (`src/HeatStack`).  The C++ code is shallowly embedded over `ℚ`
(exact arithmetic in place of IEEE doubles); `std::vector<double>` becomes
`List ℚ`, out-of-range reads become `List.getD _ _ 0`, and fallible calls
return `Except String _`.  Definitions mirror the corresponding C++
functions; the file then proves or refutes the specification's claims
about them.
-/

namespace HeatStack

/-- Material record, from `MaterialProperties.h` (`struct Material`). -/
structure Material where
  name : String
  k : ℚ
  rho : ℚ
  c : ℚ
  maxTemp : ℚ
  glassTransitionTemp : ℚ
deriving DecidableEq, Repr

/-- Layer record, from `MaterialProperties.h` (`struct Layer`). -/
structure Layer where
  material : Material
  thickness : ℚ
  numPoints : ℕ
deriving DecidableEq, Repr

/-- Stack record, from `MaterialProperties.h` (`struct Stack`). -/
structure Stack where
  id : ℕ
  layers : List Layer
  totalThickness : ℚ
  xGrid : List ℚ
deriving DecidableEq, Repr

/-- Placeholder material used as the `getD` default where the C++ code
would index out of range. -/
def dummyMaterial : Material := ⟨"", 0, 0, 0, 0, 0⟩

/-- Placeholder layer used as the `getD` default. -/
def dummyLayer : Layer := ⟨dummyMaterial, 0, 0⟩

/-- Inner loop of `MaterialProperties::generateGrid`: perform `k` times
`x += dx; xGrid.push_back(x);`, returning the pushed points and the final
running coordinate `x`. -/
def pushLayerPoints (x dx : ℚ) : ℕ → List ℚ × ℚ
  | 0 => ([], x)
  | Nat.succ k =>
      let x1 := x + dx
      let r := pushLayerPoints x1 dx k
      (x1 :: r.1, r.2)

/-- Outer loop of `MaterialProperties::generateGrid`: for each layer set
`dx = thickness / (pointsPerLayer - 1)` and push `pointsPerLayer - 1`
points (`for i = 1; i < pointsPerLayer`).  Returns the points pushed after
the leading `0` together with the final running coordinate. -/
def generateGridLoop (p : ℕ) : ℚ → List Layer → List ℚ × ℚ
  | x, [] => ([], x)
  | x, layer :: rest =>
      let dx := layer.thickness / ((p : ℚ) - 1)
      let r1 := pushLayerPoints x dx (p - 1)
      let r2 := generateGridLoop p r1.2 rest
      (r1.1 ++ r2.1, r2.2)

/-- Embeds `MaterialProperties::generateGrid` (MaterialProperties.cpp, lines
46-60): clear `xGrid`, push `0`, walk the layers pushing the evenly spaced
points of each, set each layer's `numPoints` to `pointsPerLayer`, and
record the final running coordinate as `totalThickness`. -/
def generateGrid (stack : Stack) (pointsPerLayer : ℕ) : Stack :=
  let r := generateGridLoop pointsPerLayer 0 stack.layers
  { stack with
    layers := stack.layers.map fun l => { l with numPoints := pointsPerLayer }
    xGrid := 0 :: r.1
    totalThickness := r.2 }

/-- Thermal diffusivity of a material, `k / (rho * c)`, as computed inline
in `HeatEquationSolver::getThermalDiffusivity`. -/
def diffusivity (m : Material) : ℚ := m.k / (m.rho * m.c)

/-- The layer scan of `HeatEquationSolver::getThermalDiffusivity`: walk
the layers accumulating `x_start` and return the diffusivity of the first
layer with `x <= x_start + thickness`; fall through to `fallback` (the
last layer's diffusivity in the C++ code). -/
def diffusivityScan (x : ℚ) (fallback : ℚ) : ℚ → List Layer → ℚ
  | _, [] => fallback
  | xStart, l :: rest =>
      if x ≤ xStart + l.thickness then diffusivity l.material
      else diffusivityScan x fallback (xStart + l.thickness) rest

/-- Embeds `HeatEquationSolver::getThermalDiffusivity` (HeatEquationSolver.cpp,
lines 200-210). -/
def getThermalDiffusivity (stack : Stack) (i : ℕ) : ℚ :=
  diffusivityScan (stack.xGrid.getD i 0)
    (diffusivity (stack.layers.getLastD dummyLayer).material) 0 stack.layers

/-! ## Tridiagonal (Thomas) solver, from `BTCSMatrixSolver.cpp` -/

/-- Forward-elimination modified super-diagonal of
`BTCSMatrixSolver::solve`: `c'_0 = c_0 / b_0` and
`c'_i = c_i / (b_i - a_(i-1) * c'_(i-1))`. -/
def thomasCPrime (a b c : List ℚ) : ℕ → ℚ
  | 0 => c.getD 0 0 / b.getD 0 0
  | Nat.succ i =>
      c.getD (i + 1) 0 / (b.getD (i + 1) 0 - a.getD i 0 * thomasCPrime a b c i)

/-- Forward-elimination modified right-hand side of
`BTCSMatrixSolver::solve`: `d'_0 = d_0 / b_0` and
`d'_i = (d_i - a_(i-1) * d'_(i-1)) / (b_i - a_(i-1) * c'_(i-1))`; the
final row (`i = n-1`) uses the same formula, as in the C++ code. -/
def thomasDPrime (a b c d : List ℚ) : ℕ → ℚ
  | 0 => d.getD 0 0 / b.getD 0 0
  | Nat.succ i =>
      (d.getD (i + 1) 0 - a.getD i 0 * thomasDPrime a b c d i) /
        (b.getD (i + 1) 0 - a.getD i 0 * thomasCPrime a b c i)

/-- Back substitution of `BTCSMatrixSolver::solve`:
`x_(n-1) = d'_(n-1)` and `x_i = d'_i - c'_i * x_(i+1)`. -/
def thomasX (a b c d : List ℚ) (n : ℕ) (i : ℕ) : ℚ :=
  if _h : i + 1 < n then
    thomasDPrime a b c d i - thomasCPrime a b c i * thomasX a b c d n (i + 1)
  else
    thomasDPrime a b c d i
termination_by n - i

/-- The solution vector assembled by `BTCSMatrixSolver::solve` (without
the leading size check). -/
def solveCore (a b c : List ℚ) (n : ℕ) (d : List ℚ) : List ℚ :=
  (List.range n).map (thomasX a b c d n)

/-- Embeds `BTCSMatrixSolver::solve` (BTCSMatrixSolver.cpp, lines 15-43),
including the size-mismatch check at entry. -/
def BTCSsolve (a b c : List ℚ) (n : ℕ) (d : List ℚ) : Except String (List ℚ) :=
  if d.length ≠ n then Except.error "Size mismatch in BTCSMatrixSolver::solve"
  else Except.ok (solveCore a b c n d)

/-! ### Specification-side restatement of the Thomas recurrences

These definitions follow the wording of the specification (section 4.3)
rather than the C++ code; claim C2 compares them with the embedding
above. -/

/-- Modified super-diagonal coefficients as worded in the spec:
`c'_0 = c_0/b_0`, then `denom = b_i - a_(i-1) * c'_(i-1)` and
`c'_i = c_i/denom`. -/
def specCPrime (a b c : List ℚ) : ℕ → ℚ
  | 0 => c.getD 0 0 / b.getD 0 0
  | Nat.succ i =>
      let denom := b.getD (i + 1) 0 - a.getD i 0 * specCPrime a b c i
      c.getD (i + 1) 0 / denom

/-- Modified right-hand side as worded in the spec:
`d'_0 = d_0/b_0`, then `d'_i = (d_i - a_(i-1) * d'_(i-1))/denom`, the
final row closing without a super-diagonal term. -/
def specDPrime (a b c d : List ℚ) : ℕ → ℚ
  | 0 => d.getD 0 0 / b.getD 0 0
  | Nat.succ i =>
      let denom := b.getD (i + 1) 0 - a.getD i 0 * specCPrime a b c i
      (d.getD (i + 1) 0 - a.getD i 0 * specDPrime a b c d i) / denom

/-- Back substitution as worded in the spec: `x_(n-1) = d'_(n-1)`,
`x_i = d'_i - c'_i * x_(i+1)` from the last index down. -/
def specX (a b c d : List ℚ) (n : ℕ) (i : ℕ) : ℚ :=
  if _h : i + 1 < n then
    specDPrime a b c d i - specCPrime a b c i * specX a b c d n (i + 1)
  else
    specDPrime a b c d i
termination_by n - i

theorem specCPrime_eq_thomasCPrime (a b c : List ℚ) (i : ℕ) :
    specCPrime a b c i = thomasCPrime a b c i := by
  induction i with
  | zero => rfl
  | succ j ih => simp only [specCPrime, thomasCPrime, ih]

theorem specDPrime_eq_thomasDPrime (a b c d : List ℚ) (i : ℕ) :
    specDPrime a b c d i = thomasDPrime a b c d i := by
  induction i with
  | zero => rfl
  | succ j ih =>
      simp only [specDPrime, thomasDPrime, ih, specCPrime_eq_thomasCPrime]

theorem specX_eq_thomasX (a b c d : List ℚ) (n i : ℕ) :
    specX a b c d n i = thomasX a b c d n i := by
  rw [specX, thomasX]
  by_cases h : i + 1 < n
  · simp only [h, dif_pos, specDPrime_eq_thomasDPrime,
      specCPrime_eq_thomasCPrime, specX_eq_thomasX a b c d n (i + 1)]
  · simp only [h, dif_neg, not_false_iff, specDPrime_eq_thomasDPrime]
termination_by n - i

/-! ### Unfolding lemmas for back substitution -/

theorem thomasX_of_lt (a b c d : List ℚ) (n i : ℕ) (h : i + 1 < n) :
    thomasX a b c d n i =
      thomasDPrime a b c d i - thomasCPrime a b c i * thomasX a b c d n (i + 1) := by
  rw [thomasX]
  simp [h]

theorem thomasX_of_ge (a b c d : List ℚ) (n i : ℕ) (h : ¬ i + 1 < n) :
    thomasX a b c d n i = thomasDPrime a b c d i := by
  rw [thomasX]
  simp [h]

/-! ### Row equations: the solver output satisfies the tridiagonal system -/

/-- Forward-elimination denominator of row `i + 1`. -/
def thomasDenom (a b c : List ℚ) (i : ℕ) : ℚ :=
  b.getD (i + 1) 0 - a.getD i 0 * thomasCPrime a b c i

theorem thomas_row_first (a b c d : List ℚ) (n : ℕ) (hn : 1 < n)
    (hb0 : b.getD 0 0 ≠ 0) :
    b.getD 0 0 * thomasX a b c d n 0 + c.getD 0 0 * thomasX a b c d n 1 =
      d.getD 0 0 := by
  rw [thomasX_of_lt a b c d n 0 hn]
  simp only [thomasDPrime, thomasCPrime]
  have hb : (b[0]?.getD 0 : ℚ) ≠ 0 := by simpa [List.getD] using hb0
  field_simp [hb]

theorem thomas_row_middle (a b c d : List ℚ) (n j : ℕ) (hj : j + 2 < n)
    (hden : thomasDenom a b c j ≠ 0) :
    a.getD j 0 * thomasX a b c d n j +
      b.getD (j + 1) 0 * thomasX a b c d n (j + 1) +
      c.getD (j + 1) 0 * thomasX a b c d n (j + 2) = d.getD (j + 1) 0 := by
  have h1 : j + 1 < n := by omega
  rw [thomasX_of_lt a b c d n j h1, thomasX_of_lt a b c d n (j + 1) hj]
  have hC : thomasCPrime a b c (j + 1) =
      c.getD (j + 1) 0 / thomasDenom a b c j := rfl
  have hD : thomasDPrime a b c d (j + 1) =
      (d.getD (j + 1) 0 - a.getD j 0 * thomasDPrime a b c d j) /
        thomasDenom a b c j := rfl
  have hB : b.getD (j + 1) 0 =
      thomasDenom a b c j + a.getD j 0 * thomasCPrime a b c j := by
    simp [thomasDenom]
  rw [hC, hD, hB]
  field_simp
  ring

theorem thomas_row_last (a b c d : List ℚ) (n m : ℕ) (hn : n = m + 2)
    (hden : thomasDenom a b c m ≠ 0) :
    a.getD m 0 * thomasX a b c d n m +
      b.getD (m + 1) 0 * thomasX a b c d n (m + 1) = d.getD (m + 1) 0 := by
  subst hn
  rw [thomasX_of_lt a b c d (m + 2) m (by omega),
    thomasX_of_ge a b c d (m + 2) (m + 1) (by omega)]
  have hD : thomasDPrime a b c d (m + 1) =
      (d.getD (m + 1) 0 - a.getD m 0 * thomasDPrime a b c d m) /
        thomasDenom a b c m := rfl
  have hB : b.getD (m + 1) 0 =
      thomasDenom a b c m + a.getD m 0 * thomasCPrime a b c m := by
    simp [thomasDenom]
  rw [hD, hB]
  field_simp
  ring

theorem solveCore_getD (a b c d : List ℚ) (n i : ℕ) (h : i < n) :
    (solveCore a b c n d).getD i 0 = thomasX a b c d n i := by
  simp [solveCore, List.getD_eq_getElem?_getD, List.getElem?_map,
    List.getElem?_range, h]

/-- C2: for every configured tridiagonal system of size `n ≥ 2` (with the
stated band lengths) and right-hand side of length `n`, provided `b_0` and
every forward-elimination denominator are nonzero,
`BTCSMatrixSolver::solve` returns exactly the vector given by the
specification's forward-elimination and back-substitution recurrences, and
that vector satisfies `A * x = d` in exact arithmetic (first row, middle
rows, last row). -/
theorem solve_matches_spec_and_satisfies_system (n : ℕ) (a b c d : List ℚ) (hn : 2 ≤ n)
    (ha : a.length = n - 1) (hb : b.length = n) (hc : c.length = n - 1)
    (hd : d.length = n)
    (hb0 : b.getD 0 0 ≠ 0)
    (hden : ∀ i, i + 2 ≤ n → thomasDenom a b c i ≠ 0) :
    BTCSsolve a b c n d = Except.ok (solveCore a b c n d) ∧
    solveCore a b c n d = (List.range n).map (specX a b c d n) ∧
    (b.getD 0 0 * (solveCore a b c n d).getD 0 0 +
        c.getD 0 0 * (solveCore a b c n d).getD 1 0 = d.getD 0 0) ∧
    (∀ j, j + 2 < n →
      a.getD j 0 * (solveCore a b c n d).getD j 0 +
        b.getD (j + 1) 0 * (solveCore a b c n d).getD (j + 1) 0 +
        c.getD (j + 1) 0 * (solveCore a b c n d).getD (j + 2) 0 =
          d.getD (j + 1) 0) ∧
    (a.getD (n - 2) 0 * (solveCore a b c n d).getD (n - 2) 0 +
        b.getD (n - 1) 0 * (solveCore a b c n d).getD (n - 1) 0 =
          d.getD (n - 1) 0) := by
  refine ⟨?_, ?_, ?_, ?_, ?_⟩
  · simp [BTCSsolve, hd]
  · simp only [solveCore]
    exact List.map_congr_left fun i _ => (specX_eq_thomasX a b c d n i).symm
  · rw [solveCore_getD a b c d n 0 (by omega), solveCore_getD a b c d n 1 (by omega)]
    exact thomas_row_first a b c d n (by omega) hb0
  · intro j hj
    rw [solveCore_getD a b c d n j (by omega),
      solveCore_getD a b c d n (j + 1) (by omega),
      solveCore_getD a b c d n (j + 2) (by omega)]
    exact thomas_row_middle a b c d n j hj (hden j (by omega))
  · obtain ⟨m, rfl⟩ : ∃ m, n = m + 2 := ⟨n - 2, by omega⟩
    have h1 : m + 2 - 2 = m := by omega
    have h2 : m + 2 - 1 = m + 1 := by omega
    rw [h1, h2, solveCore_getD a b c d (m + 2) m (by omega),
      solveCore_getD a b c d (m + 2) (m + 1) (by omega)]
    exact thomas_row_last a b c d (m + 2) m rfl (hden m (by omega))

/-- Witness for C2: the hypotheses hold and the conclusion is realized on
the concrete system `a = [1,1]`, `b = [2,2,2]`, `c = [1,1]`, `d = [1,2,3]`. -/
theorem solve_matches_spec_and_satisfies_system_witness :
    (∀ i, i + 2 ≤ 3 → thomasDenom [1, 1] [2, 2, 2] [1, 1] i ≠ 0) ∧
    BTCSsolve [1, 1] [2, 2, 2] [1, 1] 3 [1, 2, 3] =
      Except.ok (solveCore [1, 1] [2, 2, 2] [1, 1] 3 [1, 2, 3]) ∧
    solveCore [1, 1] [2, 2, 2] [1, 1] 3 [1, 2, 3] =
      (List.range 3).map (specX [1, 1] [2, 2, 2] [1, 1] [1, 2, 3] 3) ∧
    ([2, 2, 2] : List ℚ).getD 0 0 *
        (solveCore [1, 1] [2, 2, 2] [1, 1] 3 [1, 2, 3]).getD 0 0 +
      ([1, 1] : List ℚ).getD 0 0 *
        (solveCore [1, 1] [2, 2, 2] [1, 1] 3 [1, 2, 3]).getD 1 0 =
      ([1, 2, 3] : List ℚ).getD 0 0 := by
  have hden : ∀ i, i + 2 ≤ 3 → thomasDenom [1, 1] [2, 2, 2] [1, 1] i ≠ 0 := by
    intro i h
    have hi : i ≤ 1 := by omega
    interval_cases i <;> norm_num [thomasDenom, thomasCPrime]
  have h := solve_matches_spec_and_satisfies_system 3 [1, 1] [2, 2, 2] [1, 1]
    [1, 2, 3] (by norm_num) (by decide) (by decide) (by decide) (by decide)
    (by norm_num) hden
  exact ⟨hden, h.1, h.2.1, h.2.2.1⟩

/-! ### Grid-generation lemmas -/

theorem pushLayerPoints_snd (x dx : ℚ) (k : ℕ) :
    (pushLayerPoints x dx k).2 = x + k * dx := by
  induction k generalizing x with
  | zero => simp [pushLayerPoints]
  | succ m ih =>
      simp only [pushLayerPoints, ih (x + dx)]
      push_cast
      ring

theorem pushLayerPoints_length (x dx : ℚ) (k : ℕ) :
    (pushLayerPoints x dx k).1.length = k := by
  induction k generalizing x with
  | zero => simp [pushLayerPoints]
  | succ m ih => simp [pushLayerPoints, ih]

theorem pushLayerPoints_getLastD (x dx : ℚ) (k : ℕ) :
    (pushLayerPoints x dx k).1.getLastD x = (pushLayerPoints x dx k).2 := by
  induction k generalizing x with
  | zero => simp [pushLayerPoints]
  | succ m ih =>
      simp only [pushLayerPoints]
      rw [List.getLastD_cons]
      exact ih (x + dx)

theorem pushLayerPoints_getD (x dx : ℚ) (k m : ℕ) (h : m < k) :
    (pushLayerPoints x dx k).1.getD m 0 = x + (m + 1) * dx := by
  induction k generalizing x m with
  | zero => omega
  | succ n ih =>
      cases m with
      | zero => simp [pushLayerPoints]
      | succ m' =>
          simp only [pushLayerPoints, List.getD_cons_succ]
          rw [ih (x + dx) m' (by omega)]
          push_cast
          ring

theorem pushLayerPoints_chain (x dx : ℚ) (k : ℕ) (hdx : 0 < dx) :
    List.Chain (· < ·) x (pushLayerPoints x dx k).1 := by
  induction k generalizing x with
  | zero => simp [pushLayerPoints]
  | succ m ih =>
      simp only [pushLayerPoints]
      exact List.Chain.cons (by linarith) (ih (x + dx))

theorem getLastD_append_q (l1 l2 : List ℚ) (d : ℚ) :
    (l1 ++ l2).getLastD d = l2.getLastD (l1.getLastD d) := by
  induction l1 generalizing d with
  | nil => simp
  | cons a t ih =>
      rw [List.cons_append, List.getLastD_cons, ih, List.getLastD_cons]

theorem chain_lt_append (x : ℚ) (l1 l2 : List ℚ)
    (h1 : List.Chain (· < ·) x l1)
    (h2 : List.Chain (· < ·) (l1.getLastD x) l2) :
    List.Chain (· < ·) x (l1 ++ l2) := by
  induction l1 generalizing x with
  | nil => simpa using h2
  | cons y t ih =>
      rcases h1 with _ | ⟨hxy, hyt⟩
      rw [List.getLastD_cons] at h2
      exact List.Chain.cons hxy (ih y hyt h2)

theorem generateGridLoop_snd (p : ℕ) (hp : 2 ≤ p) (ls : List Layer) (x : ℚ) :
    (generateGridLoop p x ls).2 = x + (ls.map Layer.thickness).sum := by
  induction ls generalizing x with
  | nil => simp [generateGridLoop]
  | cons l rest ih =>
      have hcast : ((p - 1 : ℕ) : ℚ) = (p : ℚ) - 1 := by
        push_cast [Nat.cast_sub (by omega : 1 ≤ p)]
        ring
      have hne : ((p : ℚ) - 1) ≠ 0 := by
        have : (2 : ℚ) ≤ (p : ℚ) := by exact_mod_cast hp
        linarith
      simp only [generateGridLoop, ih, pushLayerPoints_snd, List.map_cons,
        List.sum_cons, hcast]
      have hv : ((p : ℚ) - 1) * (l.thickness / ((p : ℚ) - 1)) = l.thickness := by
        field_simp
      rw [hv]
      ring

theorem generateGridLoop_length (p : ℕ) (ls : List Layer) (x : ℚ) :
    (generateGridLoop p x ls).1.length = ls.length * (p - 1) := by
  induction ls generalizing x with
  | nil => simp [generateGridLoop]
  | cons l rest ih =>
      simp only [generateGridLoop, List.length_append, pushLayerPoints_length,
        ih, List.length_cons]
      ring

theorem generateGridLoop_getLastD (p : ℕ) (ls : List Layer) (x : ℚ) :
    (generateGridLoop p x ls).1.getLastD x = (generateGridLoop p x ls).2 := by
  induction ls generalizing x with
  | nil => simp [generateGridLoop]
  | cons l rest ih =>
      simp only [generateGridLoop, getLastD_append_q, pushLayerPoints_getLastD,
        ih]

theorem generateGridLoop_chain (p : ℕ) (hp : 2 ≤ p) (ls : List Layer) (x : ℚ)
    (hpos : ∀ l ∈ ls, 0 < l.thickness) :
    List.Chain (· < ·) x (generateGridLoop p x ls).1 := by
  induction ls generalizing x with
  | nil => simp [generateGridLoop]
  | cons l rest ih =>
      have hne : (0 : ℚ) < (p : ℚ) - 1 := by
        have : (2 : ℚ) ≤ (p : ℚ) := by exact_mod_cast hp
        linarith
      have hdx : 0 < l.thickness / ((p : ℚ) - 1) :=
        div_pos (hpos l (by simp)) hne
      simp only [generateGridLoop]
      refine chain_lt_append x _ _ (pushLayerPoints_chain x _ _ hdx) ?_
      rw [pushLayerPoints_getLastD]
      exact ih _ fun l' hl' => hpos l' (by simp [hl'])

theorem take_map_sum_succ (ls : List Layer) (L : ℕ) (h : L < ls.length) :
    ((ls.take (L + 1)).map Layer.thickness).sum =
      ((ls.take L).map Layer.thickness).sum +
        (ls.getD L dummyLayer).thickness := by
  induction ls generalizing L with
  | nil => simp at h
  | cons l rest ih =>
      cases L with
      | zero => simp
      | succ L' =>
          simp only [List.take_succ_cons, List.map_cons, List.sum_cons,
            List.getD_cons_succ]
          rw [ih L' (by simpa using h)]
          ring

theorem generateGridLoop_getD (p : ℕ) (hp : 2 ≤ p) (ls : List Layer)
    (x : ℚ) (L j : ℕ) (hL : L < ls.length) (hj1 : 1 ≤ j) (hj2 : j ≤ p - 1) :
    (generateGridLoop p x ls).1.getD (L * (p - 1) + j - 1) 0 =
      x + ((ls.take L).map Layer.thickness).sum +
        j * ((ls.getD L dummyLayer).thickness / ((p : ℚ) - 1)) := by
  induction ls generalizing x L with
  | nil => simp at hL
  | cons l rest ih =>
      cases L with
      | zero =>
          have hidx : 0 * (p - 1) + j - 1 = j - 1 := by omega
          have hlen : j - 1 < (pushLayerPoints x (l.thickness / ((p : ℚ) - 1)) (p - 1)).1.length := by
            rw [pushLayerPoints_length]
            omega
          simp only [generateGridLoop, hidx]
          rw [List.getD_append _ _ _ _ hlen,
            pushLayerPoints_getD _ _ _ _ (by omega)]
          have hcast : ((j - 1 : ℕ) : ℚ) + 1 = (j : ℚ) := by
            push_cast [Nat.cast_sub hj1]
            ring
          rw [hcast]
          simp
      | succ L' =>
          have hplen : (pushLayerPoints x (l.thickness / ((p : ℚ) - 1)) (p - 1)).1.length
              = p - 1 := pushLayerPoints_length _ _ _
          have hmul : (L' + 1) * (p - 1) = L' * (p - 1) + (p - 1) := by ring
          simp only [generateGridLoop]
          rw [List.getD_append_right _ _ _ _ (by rw [hplen]; omega)]
          have hsub : (L' + 1) * (p - 1) + j - 1 -
              (pushLayerPoints x (l.thickness / ((p : ℚ) - 1)) (p - 1)).1.length =
              L' * (p - 1) + j - 1 := by
            rw [hplen]
            omega
          rw [hsub, ih _ L' (by simpa using hL)]
          have hx1 : (pushLayerPoints x (l.thickness / ((p : ℚ) - 1)) (p - 1)).2 =
              x + l.thickness := by
            rw [pushLayerPoints_snd]
            have hcast : ((p - 1 : ℕ) : ℚ) = (p : ℚ) - 1 := by
              push_cast [Nat.cast_sub (by omega : 1 ≤ p)]
              ring
            have hne : ((p : ℚ) - 1) ≠ 0 := by
              have : (2 : ℚ) ≤ (p : ℚ) := by exact_mod_cast hp
              linarith
            rw [hcast]
            field_simp
          rw [hx1]
          simp only [List.take_succ_cons, List.map_cons, List.sum_cons,
            List.getD_cons_succ]
          ring

/-- The TPS material of `MaterialProperties::MaterialProperties`
(`{"TPS", 0.2, 160, 1200, 0, 1200}`). -/
def tpsMaterial : Material := ⟨"TPS", 1/5, 160, 1200, 0, 1200⟩

/-- The carbon-fiber material (`{"CarbonFiber", 500, 1600, 700, 0, 350}`). -/
def carbonFiberMaterial : Material := ⟨"CarbonFiber", 500, 1600, 700, 0, 350⟩

/-- The glue material (`{"Glue", 200, 1300, 900, 0, 400}`). -/
def glueMaterial : Material := ⟨"Glue", 200, 1300, 900, 0, 400⟩

/-- The steel material (`{"Steel", 100, 7850, 500, 800, 0}`). -/
def steelMaterial : Material := ⟨"Steel", 100, 7850, 500, 800, 0⟩

/-- A stack whose single layer has thickness `0`: a legal
layer-thickness/point-count combination on which claim C3 fails. -/
def zeroThicknessStack : Stack := ⟨1, [⟨tpsMaterial, 0, 10⟩], 0, []⟩

/-- A stack with one layer of thickness `1`. -/
def oneLayerStack : Stack := ⟨1, [⟨tpsMaterial, 1, 10⟩], 0, []⟩

/-- A stack with two layers of positive thickness. -/
def twoLayerStack : Stack :=
  ⟨1, [⟨tpsMaterial, 1, 10⟩, ⟨steelMaterial, 2, 10⟩], 0, []⟩

/-- C3 counterexample: with a zero-thickness layer (a legal
layer-thickness/point-count combination) the generated grid `[0, 0]` is
not strictly increasing, so the claim as stated is false. -/
theorem generateGrid_not_strictly_increasing_at_zero_thickness :
    ¬ List.Chain' (· < ·) (generateGrid zeroThicknessStack 2).xGrid := by
  norm_num [generateGrid, generateGridLoop, pushLayerPoints, zeroThicknessStack,
    List.chain'_cons]

/-- C3 (amended): for every stack whose layers all have positive thickness
and every `pointsPerLayer ≥ 2`, after `generateGrid` the grid starts at 0,
is strictly increasing, and its last value equals the sum of the layer
thicknesses, which is also recorded as the stack's total thickness. -/
theorem generateGrid_starts_zero_increasing_ends_at_total (stack : Stack)
    (p : ℕ) (hp : 2 ≤ p) (hpos : ∀ l ∈ stack.layers, 0 < l.thickness) :
    (generateGrid stack p).xGrid.getD 0 0 = 0 ∧
    List.Chain' (· < ·) (generateGrid stack p).xGrid ∧
    (generateGrid stack p).xGrid.getLastD 0 =
      (stack.layers.map Layer.thickness).sum ∧
    (generateGrid stack p).totalThickness =
      (stack.layers.map Layer.thickness).sum := by
  refine ⟨by simp [generateGrid], ?_, ?_, ?_⟩
  · show List.Chain' (· < ·) (0 :: (generateGridLoop p 0 stack.layers).1)
    exact generateGridLoop_chain p hp stack.layers 0 hpos
  · show (0 :: (generateGridLoop p 0 stack.layers).1).getLastD 0 = _
    rw [List.getLastD_cons, generateGridLoop_getLastD,
      generateGridLoop_snd p hp]
    ring
  · show (generateGridLoop p 0 stack.layers).2 = _
    rw [generateGridLoop_snd p hp]
    ring

/-- Witness for C3's amended theorem at a concrete two-layer stack with
`pointsPerLayer = 2`. -/
theorem generateGrid_starts_zero_increasing_ends_at_total_witness :
    (∀ l ∈ twoLayerStack.layers, 0 < l.thickness) ∧
    ((generateGrid twoLayerStack 2).xGrid.getD 0 0 = 0 ∧
     List.Chain' (· < ·) (generateGrid twoLayerStack 2).xGrid ∧
     (generateGrid twoLayerStack 2).xGrid.getLastD 0 =
       (twoLayerStack.layers.map Layer.thickness).sum ∧
     (generateGrid twoLayerStack 2).totalThickness =
       (twoLayerStack.layers.map Layer.thickness).sum) := by
  have hpos : ∀ l ∈ twoLayerStack.layers, 0 < l.thickness := by
    intro l hl
    simp only [twoLayerStack, List.mem_cons, List.mem_singleton,
      List.not_mem_nil, or_false] at hl
    rcases hl with h | h <;> rw [h] <;> norm_num
  exact ⟨hpos,
    generateGrid_starts_zero_increasing_ends_at_total twoLayerStack 2
      (by norm_num) hpos⟩

/-- C6 counterexample: for a single layer of thickness 1 with
`pointsPerLayer = 2` the generated grid is `[0, 1]`, so the layer
contributes exactly one coordinate beyond its starting point `0`, not
`pointsPerLayer = 2` as claimed. -/
theorem generateGrid_layer_contribution_counterexample :
    ((generateGrid oneLayerStack 2).xGrid.countP fun q => decide (0 < q)) ≠ 2 := by
  norm_num [generateGrid, generateGridLoop, pushLayerPoints, oneLayerStack,
    List.countP_cons]

/-- C6 (amended): for every stack and `pointsPerLayer ≥ 2`, each layer
contributes exactly `pointsPerLayer - 1` coordinates beyond its starting
point (so the grid has `1 + numLayers * (pointsPerLayer - 1)` entries),
and within layer `L` the coordinate at grid index
`L * (pointsPerLayer - 1) + j` equals the cumulative thickness of the
preceding layers plus `j * thickness_L / (pointsPerLayer - 1)`: the points
are spaced by `thickness / (pointsPerLayer - 1)`. -/
theorem generateGrid_layer_contribution (stack : Stack) (p : ℕ)
    (hp : 2 ≤ p) :
    (generateGrid stack p).xGrid.length = 1 + stack.layers.length * (p - 1) ∧
    ∀ L, L < stack.layers.length → ∀ j, j ≤ p - 1 →
      (generateGrid stack p).xGrid.getD (L * (p - 1) + j) 0 =
        ((stack.layers.take L).map Layer.thickness).sum +
          (j : ℚ) * ((stack.layers.getD L dummyLayer).thickness / ((p : ℚ) - 1)) := by
  constructor
  · simp only [generateGrid, List.length_cons, generateGridLoop_length]
    omega
  · intro L hL j hj
    show (0 :: (generateGridLoop p 0 stack.layers).1).getD (L * (p - 1) + j) 0 = _
    have hcast : ((p - 1 : ℕ) : ℚ) = (p : ℚ) - 1 := by
      push_cast [Nat.cast_sub (by omega : 1 ≤ p)]
      ring
    have hne : ((p : ℚ) - 1) ≠ 0 := by
      have : (2 : ℚ) ≤ (p : ℚ) := by exact_mod_cast hp
      linarith
    rcases Nat.eq_zero_or_pos j with hj0 | hj1
    · subst hj0
      rcases Nat.eq_zero_or_pos L with hL0 | hL1
      · subst hL0
        simp
      · obtain ⟨L', rfl⟩ : ∃ L', L = L' + 1 := ⟨L - 1, by omega⟩
        have hidx : (L' + 1) * (p - 1) + 0 = ((L' + 1) * (p - 1) - 1) + 1 := by
          have : (L' + 1) * (p - 1) = L' * (p - 1) + (p - 1) := by ring
          omega
        rw [hidx, List.getD_cons_succ]
        have hidx2 : (L' + 1) * (p - 1) - 1 = L' * (p - 1) + (p - 1) - 1 := by
          have : (L' + 1) * (p - 1) = L' * (p - 1) + (p - 1) := by ring
          omega
        rw [hidx2, generateGridLoop_getD p hp stack.layers 0 L' (p - 1)
          (by omega) (by omega) (by omega)]
        rw [take_map_sum_succ stack.layers L' (by omega), hcast]
        have hv : ((p : ℚ) - 1) *
            ((stack.layers.getD L' dummyLayer).thickness / ((p : ℚ) - 1)) =
            (stack.layers.getD L' dummyLayer).thickness := by
          field_simp
        push_cast
        rw [hv]
        ring
    · have hidx : L * (p - 1) + j = (L * (p - 1) + j - 1) + 1 := by omega
      rw [hidx, List.getD_cons_succ,
        generateGridLoop_getD p hp stack.layers 0 L j hL hj1 hj]
      ring

/-- Witness for C6's amended theorem: one layer of thickness 1 with
`pointsPerLayer = 3` gives a 3-point grid whose middle point is `1/2`. -/
theorem generateGrid_layer_contribution_witness :
    (generateGrid oneLayerStack 3).xGrid.length =
      1 + oneLayerStack.layers.length * (3 - 1) ∧
    (generateGrid oneLayerStack 3).xGrid.getD (0 * (3 - 1) + 1) 0 =
      ((oneLayerStack.layers.take 0).map Layer.thickness).sum +
        (1 : ℚ) * ((oneLayerStack.layers.getD 0 dummyLayer).thickness /
          ((3 : ℚ) - 1)) := by
  have h := generateGrid_layer_contribution oneLayerStack 3 (by norm_num)
  exact ⟨h.1, h.2 0 (by simp [oneLayerStack]) 1 (by norm_num)⟩

/-! ## Boundary conditions, from `BoundaryConditions.cpp` -/

/-- Embeds `BoundaryType` (BoundaryConditions.h). -/
inductive BoundaryType where
  | dirichlet
  | neumann
  | robin
deriving DecidableEq, Repr

/-- The closed set of boundary-condition variants
(`DirichletCondition`, `NeumannCondition`, `RobinCondition`). -/
inductive BoundaryCondition where
  | dirichlet (temperature : ℚ)
  | neumann (flux : ℚ)
  | robin (h externalTemp : ℚ)
deriving DecidableEq, Repr

/-- Embeds `getType` of each variant. -/
def getType : BoundaryCondition → BoundaryType
  | .dirichlet _ => .dirichlet
  | .neumann _ => .neumann
  | .robin _ _ => .robin

/-- Embeds `getValue` of each variant; every implementation ignores the position
argument, so it is omitted (`DirichletCondition::getValue` returns the
stored temperature, `NeumannCondition::getValue` the stored flux,
`RobinCondition::getValue` returns `h * externalTemp`). -/
def getValue : BoundaryCondition → ℚ
  | .dirichlet t => t
  | .neumann f => f
  | .robin h t => h * t

/-! ## Time handling, from `TimeHandler.cpp` -/

/-- Embeds `TimeHandler` state (TimeHandler.h). -/
structure TimeHandler where
  totalTime : ℚ
  dt : ℚ
  currentTime : ℚ
  adaptive : Bool
  stepCount : ℕ
deriving DecidableEq, Repr

/-- Embeds `TimeHandler::TimeHandler(totalTime, initialTimeStep, adaptive)`. -/
def mkTimeHandler (totalTime initialTimeStep : ℚ) (adaptive : Bool) :
    TimeHandler :=
  ⟨totalTime, initialTimeStep, 0, adaptive, 0⟩

/-- Embeds `TimeHandler::advance`. -/
def TimeHandler.advance (t : TimeHandler) : TimeHandler :=
  { t with currentTime := t.currentTime + t.dt, stepCount := t.stepCount + 1 }

/-- Embeds `TimeHandler::adjustTimeStep`: a no-op unless adaptive. -/
def TimeHandler.adjustTimeStep (t : TimeHandler) (newTimeStep : ℚ) :
    TimeHandler :=
  if t.adaptive then { t with dt := newTimeStep } else t

/-- Embeds `TimeHandler::isFinished`. -/
def TimeHandler.isFinished (t : TimeHandler) : Bool :=
  decide (t.totalTime ≤ t.currentTime)

/-! ## Transient conduction solver state, from `HeatEquationSolver.cpp` -/

/-- Embeds `std::vector<double>::resize(n, fill)`: keep the first `n` existing
entries, pad with `fill` up to length `n`. -/
def resizeList (v : List ℚ) (n : ℕ) (fill : ℚ) : List ℚ :=
  v.take n ++ List.replicate (n - v.length) fill

/-- The default-constructed `Stack` held by a fresh solver. -/
def emptyStack : Stack := ⟨0, [], 0, []⟩

/-- The mutable state of a `HeatEquationSolver`, together with its
embedded `BTCSMatrixSolver` (fields `matSize`, `matA`, `matB`, `matC`)
and its own `TimeHandler` copy. -/
structure HeatEquationSolver where
  theta : ℚ
  problemSize : ℕ
  temperature : List ℚ
  prevTemperature : List ℚ
  stack : Stack
  matSize : ℕ
  matA : List ℚ
  matB : List ℚ
  matC : List ℚ
  outerBC : Option BoundaryCondition
  innerBC : Option BoundaryCondition
  timeHandler : TimeHandler
deriving DecidableEq, Repr

/-- Embeds `HeatEquationSolver::HeatEquationSolver(theta)`: null boundary
conditions, `problemSize_ = 0`, `timeHandler_(0.0, 1.0, false)`. -/
def mkSolver (theta : ℚ) : HeatEquationSolver :=
  ⟨theta, 0, [], [], emptyStack, 0, [], [], [], none, none,
    mkTimeHandler 0 1 false⟩

/-- Embeds `HeatEquationSolver::initialize` (HeatEquationSolver.cpp, lines
15-22): store the stack and time handler, resize the temperature fields
with fill `0.0`, and set up the matrix solver for the grid size. -/
def initSolver (s : HeatEquationSolver) (stack : Stack)
    (timeHandler : TimeHandler) : HeatEquationSolver :=
  let n := stack.xGrid.length
  { s with
    stack := stack
    problemSize := n
    timeHandler := timeHandler
    temperature := resizeList s.temperature n 0
    prevTemperature := resizeList s.prevTemperature n 0
    matSize := n
    matA := resizeList s.matA (n - 1) 0
    matB := resizeList s.matB n 0
    matC := resizeList s.matC (n - 1) 0 }

/-- Embeds `HeatEquationSolver::setInitialTemperature`: fails on a size
mismatch, otherwise overwrites both temperature fields. -/
def setInitialTemperature (s : HeatEquationSolver)
    (initialTemp : List ℚ) : Except String HeatEquationSolver :=
  if initialTemp.length ≠ s.problemSize then
    Except.error "Initial temperature vector size does not match problem size."
  else
    Except.ok { s with
      temperature := initialTemp
      prevTemperature := initialTemp }

/-- Embeds `HeatEquationSolver::setBoundaryConditions`. -/
def setBoundaryConditions (s : HeatEquationSolver)
    (outerBC innerBC : BoundaryCondition) : HeatEquationSolver :=
  { s with outerBC := some outerBC, innerBC := some innerBC }

/-- The tridiagonal bands and right-hand side assembled by
`HeatEquationSolver::step`. -/
structure Assembly where
  a : List ℚ
  b : List ℚ
  c : List ℚ
  rhs : List ℚ
deriving DecidableEq, Repr

/-- Body of the interior-row loop of `step` (HeatEquationSolver.cpp,
lines 52-75): local spacings, mean spacing, diffusion number, and the
writes `a[i-1]`, `b[i]`, `c[i]`, `rhs[i]`. -/
def fillInteriorRow (s : HeatEquationSolver) (dt : ℚ) (acc : Assembly)
    (i : ℕ) : Assembly :=
  let dxl := s.stack.xGrid.getD i 0 - s.stack.xGrid.getD (i - 1) 0
  let dxr := s.stack.xGrid.getD (i + 1) 0 - s.stack.xGrid.getD i 0
  let dxm := (1 / 2 : ℚ) * (dxl + dxr)
  let alpha := getThermalDiffusivity s.stack i
  let r := alpha * dt / (dxm * dxm)
  { a := acc.a.set (i - 1) (-s.theta * r)
    b := acc.b.set i (1 + 2 * s.theta * r)
    c := acc.c.set i (-s.theta * r)
    rhs := acc.rhs.set i (s.temperature.getD i 0 +
      (1 - s.theta) * r *
        (s.temperature.getD (i - 1) 0 - 2 * s.temperature.getD i 0 +
          s.temperature.getD (i + 1) 0)) }

/-- Outer Dirichlet overwrite of `step` (lines 78-86): identity row with
the target value; a null or non-Dirichlet outer condition leaves the
assembly unchanged. -/
def applyOuterDirichletRow (s : HeatEquationSolver) (asm : Assembly) :
    Assembly :=
  match s.outerBC with
  | some bc =>
      if getType bc = BoundaryType.dirichlet then
        { asm with
          b := asm.b.set 0 1
          rhs := asm.rhs.set 0 (getValue bc)
          c := asm.c.set 0 0 }
      else asm
  | none => asm

/-- Inner Dirichlet overwrite of `step` (lines 89-96). -/
def applyInnerDirichletRow (s : HeatEquationSolver) (n : ℕ)
    (asm : Assembly) : Assembly :=
  match s.innerBC with
  | some bc =>
      if getType bc = BoundaryType.dirichlet then
        { asm with
          b := asm.b.set (n - 1) 1
          rhs := asm.rhs.set (n - 1) (getValue bc)
          a := asm.a.set (n - 2) 0 }
      else asm
  | none => asm

/-- Inner Neumann overwrite of `step` (lines 99-109): the mirror
assumption `T[i+1] = T[i-1]`; note that only the condition's kind is
consulted, never its flux value. -/
def applyInnerNeumannRow (s : HeatEquationSolver) (dt : ℚ) (n : ℕ)
    (asm : Assembly) : Assembly :=
  match s.innerBC with
  | some bc =>
      if getType bc = BoundaryType.neumann then
        let i := n - 1
        let dx := s.stack.xGrid.getD i 0 - s.stack.xGrid.getD (i - 1) 0
        let alpha := getThermalDiffusivity s.stack i
        let r := alpha * dt / (dx * dx)
        { asm with
          a := asm.a.set (i - 1) (-2 * s.theta * r)
          b := asm.b.set i (1 + 2 * s.theta * r)
          rhs := asm.rhs.set i (s.temperature.getD i 0 +
            (1 - s.theta) * r *
              (s.temperature.getD (i - 1) 0 -
                2 * s.temperature.getD i 0 +
                s.temperature.getD (i - 1) 0)) }
      else asm
  | none => asm

/-- The zero-initialized bands and right-hand side the `step` loop starts
from: `a(n-1, 0.0)`, `b(n, 0.0)`, `c(n-1, 0.0)`, `rhs(n, 0.0)`. -/
def initAssembly (n : ℕ) : Assembly :=
  ⟨List.replicate (n - 1) 0, List.replicate n 0,
    List.replicate (n - 1) 0, List.replicate n 0⟩

/-- The full tridiagonal assembly of `HeatEquationSolver::step` (lines
38-109): zero-initialized bands, the interior loop `for i = 1; i < n-1`,
then the boundary-row overwrites in source order. -/
def stepAssembly (s : HeatEquationSolver) : Assembly :=
  let dt := s.timeHandler.dt
  let n := s.problemSize
  let interior :=
    (List.range' 1 (n - 2)).foldl (fillInteriorRow s dt) (initAssembly n)
  applyInnerNeumannRow s dt n
    (applyInnerDirichletRow s n (applyOuterDirichletRow s interior))

/-- Embeds `HeatEquationSolver::step` (lines 37-141): assemble, solve, replace
the temperature field, and advance the solver's own clock. -/
def step (s : HeatEquationSolver) : HeatEquationSolver :=
  let n := s.problemSize
  let asm := stepAssembly s
  let newTemp := solveCore asm.a asm.b asm.c n asm.rhs
  { s with
    matSize := n
    matA := asm.a
    matB := asm.b
    matC := asm.c
    temperature := newTemp
    prevTemperature := newTemp
    timeHandler := s.timeHandler.advance }

/-- The local diffusion number of an interior row, exactly as `step`
computes it: `r = alpha * dt / (dxm * dxm)` with
`dxm = 0.5 * (dxl + dxr)` the mean of the local spacings. -/
def interiorDiffusionNumber (s : HeatEquationSolver) (dt : ℚ) (i : ℕ) : ℚ :=
  let dxl := s.stack.xGrid.getD i 0 - s.stack.xGrid.getD (i - 1) 0
  let dxr := s.stack.xGrid.getD (i + 1) 0 - s.stack.xGrid.getD i 0
  let dxm := (1 / 2 : ℚ) * (dxl + dxr)
  getThermalDiffusivity s.stack i * dt / (dxm * dxm)

/-! ### `List.getD` / `List.set` helpers -/

theorem getD_set_self_q (l : List ℚ) (i : ℕ) (v : ℚ) (h : i < l.length) :
    (l.set i v).getD i 0 = v := by
  simp [List.getD_eq_getElem?_getD, List.getElem?_set_self h]

theorem getD_set_ne_q (l : List ℚ) (i j : ℕ) (v : ℚ) (h : i ≠ j) :
    (l.set i v).getD j 0 = l.getD j 0 := by
  simp [List.getD_eq_getElem?_getD, List.getElem?_set_ne h]

/-! ### Invariant of the interior-row loop -/

theorem foldl_fill_lengths (s : HeatEquationSolver) (dt : ℚ)
    (l : List ℕ) (acc : Assembly) :
    ((l.foldl (fillInteriorRow s dt) acc).a.length = acc.a.length) ∧
    ((l.foldl (fillInteriorRow s dt) acc).b.length = acc.b.length) ∧
    ((l.foldl (fillInteriorRow s dt) acc).c.length = acc.c.length) ∧
    ((l.foldl (fillInteriorRow s dt) acc).rhs.length = acc.rhs.length) := by
  induction l generalizing acc with
  | nil => exact ⟨rfl, rfl, rfl, rfl⟩
  | cons i t ih =>
      simp only [List.foldl_cons]
      have h := ih (fillInteriorRow s dt acc i)
      refine ⟨?_, ?_, ?_, ?_⟩
      · rw [h.1]
        simp [fillInteriorRow]
      · rw [h.2.1]
        simp [fillInteriorRow]
      · rw [h.2.2.1]
        simp [fillInteriorRow]
      · rw [h.2.2.2]
        simp [fillInteriorRow]

theorem interior_foldl_getD (s : HeatEquationSolver) (dt : ℚ) (n : ℕ) :
    ∀ m, m ≤ n - 2 → ∀ j, 1 ≤ j → j ≤ m →
      (((List.range' 1 m).foldl (fillInteriorRow s dt) (initAssembly n)).a.getD
          (j - 1) 0 = -s.theta * interiorDiffusionNumber s dt j) ∧
      (((List.range' 1 m).foldl (fillInteriorRow s dt) (initAssembly n)).b.getD
          j 0 = 1 + 2 * s.theta * interiorDiffusionNumber s dt j) ∧
      (((List.range' 1 m).foldl (fillInteriorRow s dt) (initAssembly n)).c.getD
          j 0 = -s.theta * interiorDiffusionNumber s dt j) ∧
      (((List.range' 1 m).foldl (fillInteriorRow s dt) (initAssembly n)).rhs.getD
          j 0 = s.temperature.getD j 0 +
            (1 - s.theta) * interiorDiffusionNumber s dt j *
              (s.temperature.getD (j - 1) 0 - 2 * s.temperature.getD j 0 +
                s.temperature.getD (j + 1) 0)) := by
  intro m
  induction m with
  | zero => omega
  | succ m ih =>
      intro hm j hj1 hj2
      have hconcat : List.range' 1 (m + 1) = List.range' 1 m ++ [1 + 1 * m] :=
        List.range'_concat 1 m
      have h1m : 1 + 1 * m = m + 1 := by omega
      rw [h1m] at hconcat
      rw [hconcat, List.foldl_append, List.foldl_cons, List.foldl_nil]
      set A := (List.range' 1 m).foldl (fillInteriorRow s dt) (initAssembly n)
        with hA
      have hlen := foldl_fill_lengths s dt (List.range' 1 m) (initAssembly n)
      rw [← hA] at hlen
      have hlenA : A.a.length = n - 1 := by
        rw [hlen.1]
        simp [initAssembly]
      have hlenB : A.b.length = n := by
        rw [hlen.2.1]
        simp [initAssembly]
      have hlenC : A.c.length = n - 1 := by
        rw [hlen.2.2.1]
        simp [initAssembly]
      have hlenR : A.rhs.length = n := by
        rw [hlen.2.2.2]
        simp [initAssembly]
      by_cases hj : j = m + 1
      · subst hj
        simp only [fillInteriorRow]
        refine ⟨?_, ?_, ?_, ?_⟩
        · rw [show m + 1 - 1 = m by omega,
            getD_set_self_q _ _ _ (by omega : m < A.a.length)]
          rfl
        · rw [getD_set_self_q _ _ _ (by omega : m + 1 < A.b.length)]
          rfl
        · rw [getD_set_self_q _ _ _ (by omega : m + 1 < A.c.length)]
          rfl
        · rw [getD_set_self_q _ _ _ (by omega : m + 1 < A.rhs.length)]
          rfl
      · have hj2' : j ≤ m := by omega
        have prev := ih (by omega) j hj1 hj2'
        simp only [fillInteriorRow]
        refine ⟨?_, ?_, ?_, ?_⟩
        · rw [show m + 1 - 1 = m by omega,
            getD_set_ne_q _ _ _ _ (by omega : m ≠ j - 1)]
          exact prev.1
        · rw [getD_set_ne_q _ _ _ _ (by omega : m + 1 ≠ j)]
          exact prev.2.1
        · rw [getD_set_ne_q _ _ _ _ (by omega : m + 1 ≠ j)]
          exact prev.2.2.1
        · rw [getD_set_ne_q _ _ _ _ (by omega : m + 1 ≠ j)]
          exact prev.2.2.2

/-! ### The boundary-row overwrites do not touch interior rows -/

theorem applyOuterDirichletRow_interior (s : HeatEquationSolver)
    (asm : Assembly) (j : ℕ) (hj : 1 ≤ j) :
    (applyOuterDirichletRow s asm).a = asm.a ∧
    (applyOuterDirichletRow s asm).b.getD j 0 = asm.b.getD j 0 ∧
    (applyOuterDirichletRow s asm).c.getD j 0 = asm.c.getD j 0 ∧
    (applyOuterDirichletRow s asm).rhs.getD j 0 = asm.rhs.getD j 0 := by
  unfold applyOuterDirichletRow
  cases s.outerBC with
  | none => exact ⟨rfl, rfl, rfl, rfl⟩
  | some bc =>
      dsimp only
      by_cases h : getType bc = BoundaryType.dirichlet
      · rw [if_pos h]
        exact ⟨rfl, getD_set_ne_q _ _ _ _ (by omega),
          getD_set_ne_q _ _ _ _ (by omega), getD_set_ne_q _ _ _ _ (by omega)⟩
      · rw [if_neg h]
        exact ⟨rfl, rfl, rfl, rfl⟩

theorem applyInnerDirichletRow_interior (s : HeatEquationSolver) (n : ℕ)
    (asm : Assembly) (j k : ℕ) (hj : j + 1 < n) (hk : k + 2 < n) :
    (applyInnerDirichletRow s n asm).c = asm.c ∧
    (applyInnerDirichletRow s n asm).b.getD j 0 = asm.b.getD j 0 ∧
    (applyInnerDirichletRow s n asm).rhs.getD j 0 = asm.rhs.getD j 0 ∧
    (applyInnerDirichletRow s n asm).a.getD k 0 = asm.a.getD k 0 := by
  unfold applyInnerDirichletRow
  cases s.innerBC with
  | none => exact ⟨rfl, rfl, rfl, rfl⟩
  | some bc =>
      dsimp only
      by_cases h : getType bc = BoundaryType.dirichlet
      · rw [if_pos h]
        exact ⟨rfl, getD_set_ne_q _ _ _ _ (by omega),
          getD_set_ne_q _ _ _ _ (by omega), getD_set_ne_q _ _ _ _ (by omega)⟩
      · rw [if_neg h]
        exact ⟨rfl, rfl, rfl, rfl⟩

theorem applyInnerNeumannRow_interior (s : HeatEquationSolver) (dt : ℚ)
    (n : ℕ) (asm : Assembly) (j k : ℕ) (hj : j + 1 < n) (hk : k + 2 < n) :
    (applyInnerNeumannRow s dt n asm).c = asm.c ∧
    (applyInnerNeumannRow s dt n asm).b.getD j 0 = asm.b.getD j 0 ∧
    (applyInnerNeumannRow s dt n asm).rhs.getD j 0 = asm.rhs.getD j 0 ∧
    (applyInnerNeumannRow s dt n asm).a.getD k 0 = asm.a.getD k 0 := by
  unfold applyInnerNeumannRow
  cases s.innerBC with
  | none => exact ⟨rfl, rfl, rfl, rfl⟩
  | some bc =>
      dsimp only
      by_cases h : getType bc = BoundaryType.neumann
      · rw [if_pos h]
        exact ⟨rfl, getD_set_ne_q _ _ _ _ (by omega),
          getD_set_ne_q _ _ _ _ (by omega), getD_set_ne_q _ _ _ _ (by omega)⟩
      · rw [if_neg h]
        exact ⟨rfl, rfl, rfl, rfl⟩

/-- C1: for every interior grid index `i` (excluding the two boundary
indices), `step` populates the tridiagonal row for `i` with sub-diagonal
`-theta*r_i`, diagonal `1+2*theta*r_i`, super-diagonal `-theta*r_i`, and
right-hand side `T_i + (1-theta)*r_i*(T_(i-1) - 2*T_i + T_(i+1))`, where
`r_i = alpha_i*dt/dx_avg^2` and `dx_avg` is the mean of the left and
right grid spacings at `i`; the same weight `theta` appears in both the
matrix and the right-hand side. -/
theorem step_interior_rows (s : HeatEquationSolver) (i : ℕ)
    (h1 : 1 ≤ i) (h2 : i + 1 < s.problemSize) :
    (stepAssembly s).a.getD (i - 1) 0 =
      -s.theta * interiorDiffusionNumber s s.timeHandler.dt i ∧
    (stepAssembly s).b.getD i 0 =
      1 + 2 * s.theta * interiorDiffusionNumber s s.timeHandler.dt i ∧
    (stepAssembly s).c.getD i 0 =
      -s.theta * interiorDiffusionNumber s s.timeHandler.dt i ∧
    (stepAssembly s).rhs.getD i 0 = s.temperature.getD i 0 +
      (1 - s.theta) * interiorDiffusionNumber s s.timeHandler.dt i *
        (s.temperature.getD (i - 1) 0 - 2 * s.temperature.getD i 0 +
          s.temperature.getD (i + 1) 0) ∧
    interiorDiffusionNumber s s.timeHandler.dt i =
      getThermalDiffusivity s.stack i * s.timeHandler.dt /
        (((s.stack.xGrid.getD i 0 - s.stack.xGrid.getD (i - 1) 0) +
          (s.stack.xGrid.getD (i + 1) 0 - s.stack.xGrid.getD i 0)) / 2) ^ 2 ∧
    (step s).matA = (stepAssembly s).a ∧
    (step s).matB = (stepAssembly s).b ∧
    (step s).matC = (stepAssembly s).c ∧
    (step s).temperature = solveCore (stepAssembly s).a (stepAssembly s).b
      (stepAssembly s).c s.problemSize (stepAssembly s).rhs := by
  have hstep : stepAssembly s =
      applyInnerNeumannRow s s.timeHandler.dt s.problemSize
        (applyInnerDirichletRow s s.problemSize
          (applyOuterDirichletRow s
            ((List.range' 1 (s.problemSize - 2)).foldl
              (fillInteriorRow s s.timeHandler.dt)
              (initAssembly s.problemSize)))) := rfl
  set interior := (List.range' 1 (s.problemSize - 2)).foldl
    (fillInteriorRow s s.timeHandler.dt) (initAssembly s.problemSize)
    with hInterior
  have hInt := interior_foldl_getD s s.timeHandler.dt s.problemSize
    (s.problemSize - 2) le_rfl i h1 (by omega)
  rw [← hInterior] at hInt
  have hO := applyOuterDirichletRow_interior s interior i h1
  have hD := applyInnerDirichletRow_interior s s.problemSize
    (applyOuterDirichletRow s interior) i (i - 1) h2 (by omega)
  have hN := applyInnerNeumannRow_interior s s.timeHandler.dt s.problemSize
    (applyInnerDirichletRow s s.problemSize (applyOuterDirichletRow s interior))
    i (i - 1) h2 (by omega)
  rw [hstep]
  refine ⟨?_, ?_, ?_, ?_, ?_, rfl, rfl, rfl, rfl⟩
  · rw [hN.2.2.2, hD.2.2.2, hO.1]
    exact hInt.1
  · rw [hN.2.1, hD.2.1, hO.2.1]
    exact hInt.2.1
  · rw [hN.1, hD.1]
    rw [hO.2.2.1]
    exact hInt.2.2.1
  · rw [hN.2.2.1, hD.2.2.1, hO.2.2.2]
    exact hInt.2.2.2
  · unfold interiorDiffusionNumber
    ring

/-- A concrete configured solver: one-layer stack gridded with 3 points,
theta = 1/2, dt = 1, Dirichlet 900 outside, zero-flux Neumann inside. -/
def c1Solver : HeatEquationSolver :=
  setBoundaryConditions
    (initSolver (mkSolver (1/2)) (generateGrid oneLayerStack 3)
      (mkTimeHandler 10 1 false))
    (BoundaryCondition.dirichlet 900) (BoundaryCondition.neumann 0)

/-- Witness for C1 at the interior index `i = 1` of `c1Solver`. -/
theorem step_interior_rows_witness :
    1 + 1 < c1Solver.problemSize ∧
    (stepAssembly c1Solver).b.getD 1 0 =
      1 + 2 * c1Solver.theta *
        interiorDiffusionNumber c1Solver c1Solver.timeHandler.dt 1 ∧
    (stepAssembly c1Solver).c.getD 1 0 =
      -c1Solver.theta *
        interiorDiffusionNumber c1Solver c1Solver.timeHandler.dt 1 := by
  have h2 : 1 + 1 < c1Solver.problemSize := by
    norm_num [c1Solver, setBoundaryConditions, initSolver, generateGrid,
      generateGridLoop, pushLayerPoints, oneLayerStack, mkSolver]
  have h := step_interior_rows c1Solver 1 le_rfl h2
  exact ⟨h2, h.2.1, h.2.2.1⟩

/-- C9: the flux value carried by an inner `NeumannCondition` never
influences `step`: two states identical except for that flux produce the
same assembled system and the same new temperature field (only the
condition's kind is consulted, so every inner Neumann boundary behaves as
zero-flux). -/
theorem step_ignores_inner_neumann_flux (s : HeatEquationSolver)
    (f1 f2 : ℚ) :
    stepAssembly { s with innerBC := some (BoundaryCondition.neumann f1) } =
      stepAssembly { s with innerBC := some (BoundaryCondition.neumann f2) } ∧
    (step { s with innerBC := some (BoundaryCondition.neumann f1) }).temperature =
      (step { s with innerBC := some (BoundaryCondition.neumann f2) }).temperature := by
  exact ⟨rfl, rfl⟩

/-- The default initial field `TemperatureComparator::runSimulation`
builds when no external array is supplied (TemperatureComparator.cpp,
line 76): uniform 300 K sized to the grid. -/
def runSimulationInitialTemp (stack : Stack) : List ℚ :=
  List.replicate stack.xGrid.length 300

/-- C5 counterexample: immediately after `initialize` (and before any
`setInitialTemperature`) the temperature field of a fresh solver is all
zeros, not uniformly 300 K. -/
theorem initSolver_field_not_uniform_300 :
    ¬ ∀ x ∈ (initSolver (mkSolver (1/2)) (generateGrid oneLayerStack 2)
        (mkTimeHandler 10 1 false)).temperature, x = (300 : ℚ) := by
  intro h
  have h0 : (0 : ℚ) = 300 := h 0 (by
    norm_num [initSolver, mkSolver, resizeList, generateGrid, generateGridLoop,
      pushLayerPoints, oneLayerStack])
  norm_num at h0

/-- C5 (amended): `initialize` resets the temperature field to uniform
zero; the uniform 300 K default is established by `runSimulation`, which
builds a 300-filled array sized to the grid and installs it through
`setInitialTemperature` before stepping. -/
theorem runSimulation_default_field (stack : Stack) (th : TimeHandler)
    (theta : ℚ) :
    (∀ x ∈ (initSolver (mkSolver theta) stack th).temperature, x = 0) ∧
    ∃ s', setInitialTemperature (initSolver (mkSolver theta) stack th)
        (runSimulationInitialTemp stack) = Except.ok s' ∧
      ∀ x ∈ s'.temperature, x = (300 : ℚ) := by
  constructor
  · intro x hx
    simp only [initSolver, mkSolver, resizeList, List.take_nil,
      List.nil_append] at hx
    exact List.eq_of_mem_replicate hx
  · refine ⟨{ initSolver (mkSolver theta) stack th with
        temperature := runSimulationInitialTemp stack
        prevTemperature := runSimulationInitialTemp stack }, ?_, ?_⟩
    · have hlen : ¬ (runSimulationInitialTemp stack).length ≠
          (initSolver (mkSolver theta) stack th).problemSize := by
        simp [runSimulationInitialTemp, initSolver]
      unfold setInitialTemperature
      rw [if_neg hlen]
    · intro x hx
      simp only [runSimulationInitialTemp] at hx
      exact List.eq_of_mem_replicate hx

/-- Embeds `SafetyArbitrator::evaluate` (SafetyArbitrator.cpp, lines 7-11):
reads the innermost (last) temperature and compares it with `maxTemp`. -/
def evaluate (temperatureDistribution : List ℚ) (maxTemp : ℚ) : Bool :=
  decide (temperatureDistribution.getLastD 0 < maxTemp)

/-- C10: for a non-empty distribution, `evaluate` returns `true` iff the
last element is strictly below `maxTemp`, and its verdict depends on no
other element (any distribution with the same last element gets the same
verdict, even when earlier entries exceed `maxTemp`). -/
theorem evaluate_reads_only_last (td : List ℚ) (maxTemp : ℚ)
    (h : td ≠ []) :
    (evaluate td maxTemp = true ↔ td.getLastD 0 < maxTemp) ∧
    ∀ td2, td2 ≠ [] → td2.getLastD 0 = td.getLastD 0 →
      evaluate td2 maxTemp = evaluate td maxTemp := by
  constructor
  · simp [evaluate]
  · intro td2 _ h2
    unfold evaluate
    rw [h2]

/-- Witness for C10 on `[400, 200]` against ceiling 300: the verdict is
`true` although the non-innermost entry 400 exceeds the ceiling. -/
theorem evaluate_reads_only_last_witness :
    ([400, 200] : List ℚ) ≠ [] ∧
    (evaluate [400, 200] 300 = true ↔
      ([400, 200] : List ℚ).getLastD 0 < 300) ∧
    evaluate [400, 200] 300 = true ∧ (300 : ℚ) < 400 := by
  have h := evaluate_reads_only_last [400, 200] 300 (by simp)
  refine ⟨by simp, h.1, ?_, by norm_num⟩
  rw [h.1]
  norm_num [List.getLastD]

/-! ## Error estimation, from `HeatEquationSolver::estimateError`

`estimateError` assembles a dense matrix `A` with `setupMatrix` and
`applyBoundaryConditions`, but that local matrix is never handed to the
linear solver: `matrixSolver_.solve(b)` reads the tridiagonal bands
already stored in the matrix solver.  Only the right-hand-side vector
`b` and the temperature field flow into the result, so the embedding
tracks those. -/

/-- Body of the interior loop of `HeatEquationSolver::setupRHS`
(HeatEquationSolver.cpp, lines 160-170). -/
def setupRHSRow (s : HeatEquationSolver) (dt : ℚ) (b : List ℚ) (i : ℕ) :
    List ℚ :=
  let dxLeft := s.stack.xGrid.getD i 0 - s.stack.xGrid.getD (i - 1) 0
  let dxRight := s.stack.xGrid.getD (i + 1) 0 - s.stack.xGrid.getD i 0
  let dxAvg := (dxLeft + dxRight) / 2
  let alpha := getThermalDiffusivity s.stack i
  let r := alpha * dt / (dxAvg * dxAvg)
  b.set i (s.temperature.getD i 0 +
    (1 - s.theta) * r *
      (s.temperature.getD (i - 1) 0 - 2 * s.temperature.getD i 0 +
        s.temperature.getD (i + 1) 0))

/-- Embeds `HeatEquationSolver::setupRHS`: write the interior rows
`for i = 1; i < problemSize_ - 1`. -/
def setupRHSvec (s : HeatEquationSolver) (dt : ℚ) (b : List ℚ) : List ℚ :=
  (List.range' 1 (s.problemSize - 2)).foldl (setupRHSRow s dt) b

/-- The right-hand-side effect of
`HeatEquationSolver::applyBoundaryConditions` (lines 175-196): outer
Dirichlet forces `b[0]`; inner Neumann rewrites `b[n-1]` with the
mirror stencil.  (The writes into the dense matrix `A` are dead in
`estimateError` and are not tracked.) -/
def applyBCvec (s : HeatEquationSolver) (dt : ℚ) (b : List ℚ) : List ℚ :=
  let n := s.problemSize
  let b1 := match s.outerBC with
    | some bc =>
        if getType bc = BoundaryType.dirichlet then b.set 0 (getValue bc)
        else b
    | none => b
  match s.innerBC with
  | some bc =>
      if getType bc = BoundaryType.neumann then
        let dx := s.stack.xGrid.getD (n - 1) 0 - s.stack.xGrid.getD (n - 2) 0
        let alpha := getThermalDiffusivity s.stack (n - 1)
        let r := alpha * dt / (dx * dx)
        b1.set (n - 1) (s.temperature.getD (n - 1) 0 +
          (1 - s.theta) * r *
            (s.temperature.getD (n - 2) 0 -
              2 * s.temperature.getD (n - 1) 0 +
              s.temperature.getD (n - 2) 0))
      else b1
  | none => b1

/-- Embeds `HeatEquationSolver::estimateError` (HeatEquationSolver.cpp, lines
229-254): two half steps on the shared right-hand-side vector, with
`temperature_ = temp_half` between them; returns the post-call solver
state together with the mean-square deviation from `prevTemperature_`
(the C++ function returns the square root of that scalar, which does not
affect the state). -/
def estimateErrorRun (s : HeatEquationSolver) (dt : ℚ) :
    HeatEquationSolver × ℚ :=
  let dtHalf := dt / 2
  let b1 := applyBCvec s dtHalf
    (setupRHSvec s dtHalf (List.replicate s.problemSize 0))
  let tempHalf1 := solveCore s.matA s.matB s.matC s.matSize b1
  let s1 := { s with temperature := tempHalf1 }
  let b2 := applyBCvec s1 dtHalf (setupRHSvec s1 dtHalf b1)
  let tempHalf2 := solveCore s1.matA s1.matB s1.matC s1.matSize b2
  let err := ((List.range s.problemSize).map fun i =>
      (tempHalf2.getD i 0 - s.prevTemperature.getD i 0) ^ 2).sum /
    (s.problemSize : ℚ)
  (s1, err)

/-- A concrete Crank-Nicolson solver state on the grid `[0, 1, 2]` with
identity bands stored in the matrix solver and temperature `[1, 2, 3]`. -/
def c8Solver : HeatEquationSolver where
  theta := 1/2
  problemSize := 3
  temperature := [1, 2, 3]
  prevTemperature := [1, 2, 3]
  stack := ⟨1, [⟨⟨"M", 1, 1, 1, 0, 0⟩, 2, 3⟩], 2, [0, 1, 2]⟩
  matSize := 3
  matA := [0, 0]
  matB := [1, 1, 1]
  matC := [0, 0]
  outerBC := some (BoundaryCondition.dirichlet 5)
  innerBC := some (BoundaryCondition.neumann 0)
  timeHandler := ⟨10, 2, 0, false, 0⟩

/-- C8 counterexample: on `c8Solver` (theta = 1/2), the temperature field
after `estimateError` differs from the field before the call — the
routine does not restore it. -/
theorem estimateError_not_restored :
    (estimateErrorRun c8Solver 2).1.temperature ≠ c8Solver.temperature := by
  have hsetup : setupRHSvec c8Solver 1 (List.replicate 3 (0 : ℚ)) =
      [0, 2, 0] := by
    norm_num [setupRHSvec, setupRHSRow, c8Solver, getThermalDiffusivity,
      diffusivityScan, diffusivity, List.range']
    rfl
  have happly : applyBCvec c8Solver 1 [0, 2, 0] = [5, 2, 2] := by
    norm_num [applyBCvec, c8Solver, getType, getValue, getThermalDiffusivity,
      diffusivityScan, diffusivity]
  have hcp0 : thomasCPrime [0, 0] [1, 1, 1] [0, 0] 0 = 0 := by
    norm_num [thomasCPrime]
  have hcp1 : thomasCPrime [0, 0] [1, 1, 1] [0, 0] 1 = 0 := by
    norm_num [thomasCPrime]
  have hdp0 : thomasDPrime [0, 0] [1, 1, 1] [0, 0] [5, 2, 2] 0 = 5 := by
    norm_num [thomasDPrime]
  have hdp1 : thomasDPrime [0, 0] [1, 1, 1] [0, 0] [5, 2, 2] 1 = 2 := by
    norm_num [thomasDPrime, thomasCPrime]
  have hdp2 : thomasDPrime [0, 0] [1, 1, 1] [0, 0] [5, 2, 2] 2 = 2 := by
    norm_num [thomasDPrime, thomasCPrime]
  have hx2 : thomasX [0, 0] [1, 1, 1] [0, 0] [5, 2, 2] 3 2 = 2 := by
    rw [thomasX_of_ge _ _ _ _ _ _ (by norm_num), hdp2]
  have hx1 : thomasX [0, 0] [1, 1, 1] [0, 0] [5, 2, 2] 3 1 = 2 := by
    rw [thomasX_of_lt _ _ _ _ _ _ (by norm_num), hdp1, hcp1, hx2]
    ring
  have hx0 : thomasX [0, 0] [1, 1, 1] [0, 0] [5, 2, 2] 3 0 = 5 := by
    rw [thomasX_of_lt _ _ _ _ _ _ (by norm_num), hdp0, hcp0, hx1]
    ring
  have hsolve : solveCore [0, 0] [1, 1, 1] [0, 0] 3 [5, 2, 2] =
      [5, 2, 2] := by
    show List.map (thomasX [0, 0] [1, 1, 1] [0, 0] [5, 2, 2] 3)
      (List.range 3) = [5, 2, 2]
    rw [show List.range 3 = [0, 1, 2] from rfl]
    simp only [List.map_cons, List.map_nil, hx0, hx1, hx2]
  have hfield : (estimateErrorRun c8Solver 2).1.temperature =
      solveCore c8Solver.matA c8Solver.matB c8Solver.matC c8Solver.matSize
        (applyBCvec c8Solver (2 / 2)
          (setupRHSvec c8Solver (2 / 2)
            (List.replicate c8Solver.problemSize 0))) := rfl
  rw [hfield, show ((2 : ℚ) / 2) = 1 by norm_num,
    show c8Solver.problemSize = 3 from rfl, hsetup, happly,
    show c8Solver.matA = [0, 0] from rfl,
    show c8Solver.matB = ([1, 1, 1] : List ℚ) from rfl,
    show c8Solver.matC = ([0, 0] : List ℚ) from rfl,
    show c8Solver.matSize = 3 from rfl, hsolve,
    show c8Solver.temperature = ([1, 2, 3] : List ℚ) from rfl]
  norm_num

/-- C8 (amended): `estimateError` mutates the temperature field
persistently: after it returns, the field equals the first half-step
solution (solved against the bands already stored in the matrix solver),
not the pre-call field; `prevTemperature` is untouched. -/
theorem estimateError_leaves_first_half_step (s : HeatEquationSolver)
    (dt : ℚ) :
    (estimateErrorRun s dt).1.temperature =
      solveCore s.matA s.matB s.matC s.matSize
        (applyBCvec s (dt / 2)
          (setupRHSvec s (dt / 2) (List.replicate s.problemSize 0))) ∧
    (estimateErrorRun s dt).1.prevTemperature = s.prevTemperature := by
  exact ⟨rfl, rfl⟩

/-! ## Thickness optimizer, from `TemperatureComparator.cpp`

`suggestTPSThickness` bisects the TPS-thickness bracket; each iteration
performs a full transient solve and checks three sampled temperatures
against their ceilings.  The expensive solve-and-sample check is
abstracted here as a boolean `feasible` predicate on the candidate
thickness (the `allUnder` flag in the source); the check itself is
embedded separately (`sampleInterfaces`, `allUnder`). -/

/-- Embeds `MaterialProperties::getMinTPSThickness` (0.0001 m). -/
def getMinTPSThickness : ℚ := 1 / 10000

/-- Embeds `MaterialProperties::getMaxTPSThickness` (0.01 m). -/
def getMaxTPSThickness : ℚ := 1 / 100

/-- The `tolerance` local of `suggestTPSThickness` (0.00001 m). -/
def suggestTolerance : ℚ := 1 / 100000

/-- One iteration of the bisection body (TemperatureComparator.cpp,
lines 29-66) on the state `(minThickness, maxThickness, thickness)`:
evaluate the midpoint and narrow the bracket. -/
def bisectIter (feasible : ℚ → Bool) (st : ℚ × ℚ × ℚ) : ℚ × ℚ × ℚ :=
  let thickness := (st.1 + st.2.1) / 2
  if feasible thickness then (st.1, thickness, thickness)
  else (thickness, st.2.1, thickness)

/-- The `while (maxThickness - minThickness > tolerance)` loop with an
explicit iteration budget `fuel`; once the bracket width is at most the
tolerance the state no longer changes, exactly as the source loop
exits. -/
def bisectLoop (feasible : ℚ → Bool) (tol : ℚ) : ℕ → ℚ × ℚ × ℚ → ℚ × ℚ × ℚ
  | 0, st => st
  | Nat.succ fuel, st =>
      if st.2.1 - st.1 > tol then
        bisectLoop feasible tol fuel (bisectIter feasible st)
      else st

/-- Embeds `suggestTPSThickness`'s return value: the `thickness` component after
the loop, started from the bracket `[getMin, getMax]` with `thickness`
initialized to `minThickness`. -/
def suggestTPSThicknessResult (feasible : ℚ → Bool) (fuel : ℕ) : ℚ :=
  (bisectLoop feasible suggestTolerance fuel
    (getMinTPSThickness, getMaxTPSThickness, getMinTPSThickness)).2.2

theorem bisectIter_width (feasible : ℚ → Bool) (st : ℚ × ℚ × ℚ) :
    (bisectIter feasible st).2.1 - (bisectIter feasible st).1 =
      (st.2.1 - st.1) / 2 := by
  unfold bisectIter
  by_cases h : feasible ((st.1 + st.2.1) / 2) <;> simp [h] <;> ring

theorem bisectLoop_exit (feasible : ℚ → Bool) (tol : ℚ) (fuel : ℕ)
    (st : ℚ × ℚ × ℚ) (h : ¬ st.2.1 - st.1 > tol) :
    bisectLoop feasible tol fuel st = st := by
  cases fuel with
  | zero => rfl
  | succ f =>
      unfold bisectLoop
      rw [if_neg h]

theorem bisectLoop_succ_eq (feasible : ℚ → Bool) (tol : ℚ) (fuel : ℕ)
    (st : ℚ × ℚ × ℚ) :
    bisectLoop feasible tol (fuel + 1) st =
      if st.2.1 - st.1 > tol then
        bisectLoop feasible tol fuel (bisectIter feasible st)
      else st := rfl

theorem bisectLoop_add (feasible : ℚ → Bool) (tol : ℚ) (f1 f2 : ℕ)
    (st : ℚ × ℚ × ℚ) :
    bisectLoop feasible tol (f1 + f2) st =
      bisectLoop feasible tol f2 (bisectLoop feasible tol f1 st) := by
  induction f1 generalizing st with
  | zero =>
      rw [Nat.zero_add]
      rfl
  | succ f ih =>
      rw [show Nat.succ f + f2 = (f + f2) + 1 by omega]
      rw [bisectLoop_succ_eq, bisectLoop_succ_eq]
      by_cases h : st.2.1 - st.1 > tol
      · rw [if_pos h, if_pos h, ih]
      · rw [if_neg h, if_neg h, bisectLoop_exit feasible tol f2 st h]

theorem bisectLoop_width (feasible : ℚ → Bool) (tol : ℚ) (fuel : ℕ)
    (st : ℚ × ℚ × ℚ) :
    (bisectLoop feasible tol fuel st).2.1 -
      (bisectLoop feasible tol fuel st).1 ≤
      max tol ((st.2.1 - st.1) / 2 ^ fuel) := by
  induction fuel generalizing st with
  | zero =>
      simp only [bisectLoop, pow_zero, div_one]
      exact le_max_right _ _
  | succ f ih =>
      unfold bisectLoop
      by_cases h : st.2.1 - st.1 > tol
      · rw [if_pos h]
        refine (ih (bisectIter feasible st)).trans ?_
        rw [bisectIter_width, div_div, ← pow_succ']
      · rw [if_neg h]
        exact le_max_of_le_left (by linarith)

theorem bisectLoop_stabilizes (feasible : ℚ → Bool) (tol : ℚ)
    (htol : 0 < tol) (st : ℚ × ℚ × ℚ) :
    ∃ N, ((bisectLoop feasible tol N st).2.1 -
        (bisectLoop feasible tol N st).1 ≤ tol) ∧
      ∀ fuel, N ≤ fuel →
        bisectLoop feasible tol fuel st = bisectLoop feasible tol N st := by
  obtain ⟨N, hN⟩ := pow_unbounded_of_one_lt ((st.2.1 - st.1) / tol)
    (by norm_num : (1 : ℚ) < 2)
  have hwidth : (st.2.1 - st.1) / 2 ^ N ≤ tol := by
    rw [div_le_iff (by positivity : (0 : ℚ) < 2 ^ N)]
    rw [div_lt_iff htol] at hN
    linarith [hN]
  have hexit : (bisectLoop feasible tol N st).2.1 -
      (bisectLoop feasible tol N st).1 ≤ tol := by
    refine (bisectLoop_width feasible tol N st).trans ?_
    exact max_le le_rfl hwidth
  refine ⟨N, hexit, ?_⟩
  intro fuel hfuel
  obtain ⟨k, rfl⟩ : ∃ k, fuel = N + k := ⟨fuel - N, by omega⟩
  rw [bisectLoop_add]
  exact bisectLoop_exit feasible tol k _ (by linarith)

/-- C4: in every iteration of the bisection loop a feasible midpoint
becomes the new upper bound and an infeasible one the new lower bound,
with the midpoint recorded as the last-evaluated thickness; the loop
stops as soon as the bracket width is no greater than the tolerance, it
stabilizes after finitely many iterations from the source bracket with
width at most the tolerance, and the function returns the recorded
thickness component. -/
theorem suggestTPSThickness_bisection (feasible : ℚ → Bool) :
    (∀ minT maxT th : ℚ, bisectIter feasible (minT, maxT, th) =
      if feasible ((minT + maxT) / 2)
      then (minT, (minT + maxT) / 2, (minT + maxT) / 2)
      else ((minT + maxT) / 2, maxT, (minT + maxT) / 2)) ∧
    (∀ fuel (st : ℚ × ℚ × ℚ), ¬ st.2.1 - st.1 > suggestTolerance →
      bisectLoop feasible suggestTolerance fuel st = st) ∧
    (∃ N, ((bisectLoop feasible suggestTolerance N
          (getMinTPSThickness, getMaxTPSThickness, getMinTPSThickness)).2.1 -
        (bisectLoop feasible suggestTolerance N
          (getMinTPSThickness, getMaxTPSThickness, getMinTPSThickness)).1 ≤
          suggestTolerance) ∧
      ∀ fuel, N ≤ fuel →
        bisectLoop feasible suggestTolerance fuel
            (getMinTPSThickness, getMaxTPSThickness, getMinTPSThickness) =
          bisectLoop feasible suggestTolerance N
            (getMinTPSThickness, getMaxTPSThickness, getMinTPSThickness)) ∧
    (∀ fuel, suggestTPSThicknessResult feasible fuel =
      (bisectLoop feasible suggestTolerance fuel
        (getMinTPSThickness, getMaxTPSThickness, getMinTPSThickness)).2.2) ∧
    getMaxTPSThickness - getMinTPSThickness > suggestTolerance := by
  refine ⟨?_, ?_, ?_, fun fuel => rfl, by
    norm_num [getMaxTPSThickness, getMinTPSThickness, suggestTolerance]⟩
  · intro minT maxT th
    rfl
  · intro fuel st h
    exact bisectLoop_exit feasible suggestTolerance fuel st h
  · exact bisectLoop_stabilizes feasible suggestTolerance
      (by norm_num [suggestTolerance]) _

/-! ## Interface sampling of `suggestTPSThickness` -/

/-- Embeds `std::lower_bound(xGrid.begin(), xGrid.end(), pos) - xGrid.begin()`:
index of the first grid coordinate at or beyond `pos` (the length of the
list when every coordinate is below `pos`). -/
def lowerBoundIdx (xs : List ℚ) (pos : ℚ) : ℕ :=
  xs.findIdx fun x => decide (pos ≤ x)

/-- The interface sampling of the bisection body (TemperatureComparator
.cpp, lines 43-56): positions `tpsThick + carbonThick` and that plus
`glueThick`, looked up with `lower_bound`, plus `temperatures.back()`.
Returns `(carbonTemp, glueTemp, steelTemp)`. -/
def sampleInterfaces (testStack : Stack) (temperatures : List ℚ) :
    ℚ × ℚ × ℚ :=
  let tpsThick := (testStack.layers.getD 0 dummyLayer).thickness
  let carbonThick := (testStack.layers.getD 1 dummyLayer).thickness
  let glueThick := (testStack.layers.getD 2 dummyLayer).thickness
  let posCarbonGlue := tpsThick + carbonThick
  let posGlueSteel := posCarbonGlue + glueThick
  let idxCarbonGlue := lowerBoundIdx testStack.xGrid posCarbonGlue
  let idxGlueSteel := lowerBoundIdx testStack.xGrid posGlueSteel
  (temperatures.getD idxCarbonGlue 0, temperatures.getD idxGlueSteel 0,
    temperatures.getLastD 0)

/-- The `allUnder` feasibility flag (lines 58-60): all three sampled
temperatures strictly below their ceilings. -/
def allUnder (testStack : Stack) (temperatures : List ℚ)
    (maxSteelTemp maxGlueTemp maxCarbonTemp : ℚ) : Bool :=
  let t3 := sampleInterfaces testStack temperatures
  decide (t3.2.2 < maxSteelTemp) && decide (t3.2.1 < maxGlueTemp) &&
    decide (t3.1 < maxCarbonTemp)

theorem findIdx_le_eq (xs : List ℚ) (pos : ℚ) (k : ℕ) (hk : k < xs.length)
    (hbefore : ∀ j, j < k → xs.getD j 0 < pos)
    (hat : pos ≤ xs.getD k 0) :
    (xs.findIdx fun x => decide (pos ≤ x)) = k := by
  induction xs generalizing k with
  | nil => simp at hk
  | cons x t ih =>
      rw [List.findIdx_cons]
      cases k with
      | zero =>
          have hx : decide (pos ≤ x) = true := by
            simp only [decide_eq_true_eq]
            simpa using hat
          rw [hx]
          rfl
      | succ k' =>
          have hx : decide (pos ≤ x) = false := by
            simp only [decide_eq_false_iff_not, not_le]
            simpa using hbefore 0 (by omega)
          rw [hx]
          simp only [cond_false, Nat.add_left_inj]
          exact ih k' (by simpa using hk)
            (fun j hj => by simpa using hbefore (j + 1) (by omega))
            (by simpa using hat)

theorem chain'_getD_lt (xs : List ℚ) (hch : List.Chain' (· < ·) xs)
    (i j : ℕ) (hij : i < j) (hj : j < xs.length) :
    xs.getD i 0 < xs.getD j 0 := by
  have hp := List.chain'_iff_pairwise.mp hch
  have hgot := List.pairwise_iff_getElem.mp hp i j (by omega) hj hij
  rw [List.getD_eq_getElem xs 0 (by omega : i < xs.length),
    List.getD_eq_getElem xs 0 hj]
  exact hgot

theorem generateGrid_chain (stack : Stack) (p : ℕ) (hp : 2 ≤ p)
    (hpos : ∀ l ∈ stack.layers, 0 < l.thickness) :
    List.Chain' (· < ·) (generateGrid stack p).xGrid := by
  show List.Chain' (· < ·) (0 :: (generateGridLoop p 0 stack.layers).1)
  exact generateGridLoop_chain p hp stack.layers 0 hpos

theorem generateGrid_xGrid_length (stack : Stack) (p : ℕ) :
    (generateGrid stack p).xGrid.length =
      1 + stack.layers.length * (p - 1) := by
  simp only [generateGrid, List.length_cons, generateGridLoop_length]
  omega

/-- The grid coordinate at index `L * (p - 1)` is the cumulative
thickness of the first `L` layers. -/
theorem generateGrid_getD_cumulative (stack : Stack) (p : ℕ) (hp : 2 ≤ p)
    (L : ℕ) (hL : L < stack.layers.length) :
    (generateGrid stack p).xGrid.getD (L * (p - 1)) 0 =
      ((stack.layers.take L).map Layer.thickness).sum := by
  show (0 :: (generateGridLoop p 0 stack.layers).1).getD (L * (p - 1)) 0 = _
  have hcast : ((p - 1 : ℕ) : ℚ) = (p : ℚ) - 1 := by
    push_cast [Nat.cast_sub (by omega : 1 ≤ p)]
    ring
  have hne : ((p : ℚ) - 1) ≠ 0 := by
    have : (2 : ℚ) ≤ (p : ℚ) := by exact_mod_cast hp
    linarith
  rcases Nat.eq_zero_or_pos L with hL0 | hL1
  · subst hL0
    simp
  · obtain ⟨L', rfl⟩ : ∃ L', L = L' + 1 := ⟨L - 1, by omega⟩
    have hidx : (L' + 1) * (p - 1) = ((L' + 1) * (p - 1) - 1) + 1 := by
      have : (L' + 1) * (p - 1) = L' * (p - 1) + (p - 1) := by ring
      omega
    rw [hidx, List.getD_cons_succ]
    have hidx2 : (L' + 1) * (p - 1) - 1 = L' * (p - 1) + (p - 1) - 1 := by
      have : (L' + 1) * (p - 1) = L' * (p - 1) + (p - 1) := by ring
      omega
    rw [hidx2, generateGridLoop_getD p hp stack.layers 0 L' (p - 1)
      (by omega) (by omega) (by omega)]
    rw [take_map_sum_succ stack.layers L' (by omega), hcast]
    have hv : ((p : ℚ) - 1) *
        ((stack.layers.getD L' dummyLayer).thickness / ((p : ℚ) - 1)) =
        (stack.layers.getD L' dummyLayer).thickness := by
      field_simp
    push_cast
    rw [hv]
    ring

/-- The layers stored by `generateGrid` keep their thicknesses (only
`numPoints` is overwritten). -/
theorem generateGrid_layer_thickness (stack : Stack) (p : ℕ) (i : ℕ) :
    ((generateGrid stack p).layers.getD i dummyLayer).thickness =
      (stack.layers.getD i dummyLayer).thickness := by
  simp only [generateGrid]
  by_cases hi : i < stack.layers.length
  · rw [List.getD_eq_getElem _ _ (by simpa using hi),
      List.getD_eq_getElem _ _ hi, List.getElem_map]
  · rw [List.getD_eq_default _ _ (by simpa using Nat.le_of_not_lt hi),
      List.getD_eq_default _ _ (Nat.le_of_not_lt hi)]

/-- C7 (amended): on a generated grid over a stack of at least four
positive-thickness layers, the bisection body samples the temperature
field at the boundary between the SECOND and THIRD layers (cumulative
thickness of the first two layers, grid index `2*(p-1)`), at the
boundary between the THIRD and FOURTH layers (cumulative thickness of
the first three, index `3*(p-1)`), and at the innermost surface (the
last entry); each interface index is the first grid coordinate at or
beyond the cumulative-thickness boundary, and `allUnder` holds iff each
sample is strictly below its respective ceiling. -/
theorem suggestTPS_sampling_locations (stack : Stack) (p : ℕ)
    (temps : List ℚ) (maxSteelTemp maxGlueTemp maxCarbonTemp : ℚ)
    (hp : 2 ≤ p) (hlen : 3 < stack.layers.length)
    (hpos : ∀ l ∈ stack.layers, 0 < l.thickness) :
    ((generateGrid stack p).xGrid.getD (2 * (p - 1)) 0 =
      (stack.layers.getD 0 dummyLayer).thickness +
        (stack.layers.getD 1 dummyLayer).thickness) ∧
    ((generateGrid stack p).xGrid.getD (3 * (p - 1)) 0 =
      (stack.layers.getD 0 dummyLayer).thickness +
        (stack.layers.getD 1 dummyLayer).thickness +
        (stack.layers.getD 2 dummyLayer).thickness) ∧
    sampleInterfaces (generateGrid stack p) temps =
      (temps.getD (2 * (p - 1)) 0, temps.getD (3 * (p - 1)) 0,
        temps.getLastD 0) ∧
    (allUnder (generateGrid stack p) temps maxSteelTemp maxGlueTemp
        maxCarbonTemp = true ↔
      temps.getLastD 0 < maxSteelTemp ∧
        temps.getD (3 * (p - 1)) 0 < maxGlueTemp ∧
        temps.getD (2 * (p - 1)) 0 < maxCarbonTemp) := by
  have hsum0 : ((stack.layers.take 0).map Layer.thickness).sum = 0 := by
    simp
  have e0 := take_map_sum_succ stack.layers 0 (by omega)
  have e1 := take_map_sum_succ stack.layers 1 (by omega)
  have e2 := take_map_sum_succ stack.layers 2 (by omega)
  rw [hsum0] at e0
  have hsum2 : ((stack.layers.take 2).map Layer.thickness).sum =
      (stack.layers.getD 0 dummyLayer).thickness +
        (stack.layers.getD 1 dummyLayer).thickness := by
    rw [show (2 : ℕ) = 1 + 1 from rfl, e1, e0]
    ring
  have hsum3 : ((stack.layers.take 3).map Layer.thickness).sum =
      (stack.layers.getD 0 dummyLayer).thickness +
        (stack.layers.getD 1 dummyLayer).thickness +
        (stack.layers.getD 2 dummyLayer).thickness := by
    rw [show (3 : ℕ) = 2 + 1 from rfl, e2, hsum2]
  have hg2 : (generateGrid stack p).xGrid.getD (2 * (p - 1)) 0 =
      (stack.layers.getD 0 dummyLayer).thickness +
        (stack.layers.getD 1 dummyLayer).thickness := by
    rw [generateGrid_getD_cumulative stack p hp 2 (by omega), hsum2]
  have hg3 : (generateGrid stack p).xGrid.getD (3 * (p - 1)) 0 =
      (stack.layers.getD 0 dummyLayer).thickness +
        (stack.layers.getD 1 dummyLayer).thickness +
        (stack.layers.getD 2 dummyLayer).thickness := by
    rw [generateGrid_getD_cumulative stack p hp 3 (by omega), hsum3]
  have hch := generateGrid_chain stack p hp hpos
  have hlength := generateGrid_xGrid_length stack p
  have hmul4 : 4 * (p - 1) ≤ stack.layers.length * (p - 1) :=
    Nat.mul_le_mul_right _ (by omega)
  have hk2 : 2 * (p - 1) < (generateGrid stack p).xGrid.length := by
    rw [hlength]
    omega
  have hk3 : 3 * (p - 1) < (generateGrid stack p).xGrid.length := by
    rw [hlength]
    omega
  have hlb2 : lowerBoundIdx (generateGrid stack p).xGrid
      ((stack.layers.getD 0 dummyLayer).thickness +
        (stack.layers.getD 1 dummyLayer).thickness) = 2 * (p - 1) := by
    refine findIdx_le_eq _ _ _ hk2 ?_ (le_of_eq hg2.symm)
    intro j hj
    rw [← hg2]
    exact chain'_getD_lt _ hch j (2 * (p - 1)) hj hk2
  have hlb3 : lowerBoundIdx (generateGrid stack p).xGrid
      ((stack.layers.getD 0 dummyLayer).thickness +
        (stack.layers.getD 1 dummyLayer).thickness +
        (stack.layers.getD 2 dummyLayer).thickness) = 3 * (p - 1) := by
    refine findIdx_le_eq _ _ _ hk3 ?_ (le_of_eq hg3.symm)
    intro j hj
    rw [← hg3]
    exact chain'_getD_lt _ hch j (3 * (p - 1)) hj hk3
  have hsample : sampleInterfaces (generateGrid stack p) temps =
      (temps.getD (2 * (p - 1)) 0, temps.getD (3 * (p - 1)) 0,
        temps.getLastD 0) := by
    unfold sampleInterfaces
    dsimp only
    rw [generateGrid_layer_thickness stack p 0,
      generateGrid_layer_thickness stack p 1,
      generateGrid_layer_thickness stack p 2, hlb2, hlb3]
  refine ⟨hg2, hg3, hsample, ?_⟩
  unfold allUnder
  rw [hsample]
  simp [and_assoc]

/-- The four-layer TPS/carbon-fiber/glue/steel stack with unit layer
thicknesses. -/
def fourLayerStack : Stack :=
  ⟨1, [⟨tpsMaterial, 1, 10⟩, ⟨carbonFiberMaterial, 1, 10⟩,
    ⟨glueMaterial, 1, 10⟩, ⟨steelMaterial, 1, 10⟩], 0, []⟩

/-- C7 counterexample: on the generated grid `[0, 1, 2, 3, 4]` of
`fourLayerStack` with temperatures `[10, 11, 12, 13, 14]`, the first
value the loop samples is `12` (the second/third-layer boundary `x = 2`),
not the value `11` found at the first grid coordinate at or beyond the
outer/second-layer boundary `x = 1` named by the claim. -/
theorem suggestTPS_sampling_counterexample :
    (sampleInterfaces (generateGrid fourLayerStack 2)
        [10, 11, 12, 13, 14]).1 ≠
      ([10, 11, 12, 13, 14] : List ℚ).getD
        (lowerBoundIdx (generateGrid fourLayerStack 2).xGrid
          ((fourLayerStack.layers.getD 0 dummyLayer).thickness)) 0 := by
  have hgrid : (generateGrid fourLayerStack 2).xGrid = [0, 1, 2, 3, 4] := by
    norm_num [generateGrid, generateGridLoop, pushLayerPoints, fourLayerStack]
  have hlayers : (generateGrid fourLayerStack 2).layers =
      [⟨tpsMaterial, 1, 2⟩, ⟨carbonFiberMaterial, 1, 2⟩,
        ⟨glueMaterial, 1, 2⟩, ⟨steelMaterial, 1, 2⟩] := by
    norm_num [generateGrid, fourLayerStack]
  have hidx1 : lowerBoundIdx [0, 1, 2, 3, 4] (2 : ℚ) = 2 := by
    norm_num [lowerBoundIdx, List.findIdx_cons]
  have hidx2 : lowerBoundIdx [0, 1, 2, 3, 4] (3 : ℚ) = 3 := by
    norm_num [lowerBoundIdx, List.findIdx_cons]
  have hidx0 : lowerBoundIdx [0, 1, 2, 3, 4] (1 : ℚ) = 1 := by
    norm_num [lowerBoundIdx, List.findIdx_cons]
  have hfst : (sampleInterfaces (generateGrid fourLayerStack 2)
      [10, 11, 12, 13, 14]).1 = 12 := by
    unfold sampleInterfaces
    rw [hlayers, hgrid]
    norm_num [hidx1]
  rw [hfst, show (fourLayerStack.layers.getD 0 dummyLayer).thickness =
    (1 : ℚ) from rfl, hgrid, hidx0]
  norm_num

/-- Witness for C7's amended theorem on `fourLayerStack` with
`pointsPerLayer = 2` and the temperature field `[10, 11, 12, 13, 14]`. -/
theorem suggestTPS_sampling_locations_witness :
    sampleInterfaces (generateGrid fourLayerStack 2) [10, 11, 12, 13, 14] =
      (([10, 11, 12, 13, 14] : List ℚ).getD (2 * (2 - 1)) 0,
        ([10, 11, 12, 13, 14] : List ℚ).getD (3 * (2 - 1)) 0,
        ([10, 11, 12, 13, 14] : List ℚ).getLastD 0) ∧
    (allUnder (generateGrid fourLayerStack 2) [10, 11, 12, 13, 14]
        20 20 20 = true ↔
      ([10, 11, 12, 13, 14] : List ℚ).getLastD 0 < 20 ∧
        ([10, 11, 12, 13, 14] : List ℚ).getD (3 * (2 - 1)) 0 < 20 ∧
        ([10, 11, 12, 13, 14] : List ℚ).getD (2 * (2 - 1)) 0 < 20) := by
  have hpos : ∀ l ∈ fourLayerStack.layers, 0 < l.thickness := by
    intro l hl
    simp only [fourLayerStack, List.mem_cons, List.not_mem_nil,
      or_false] at hl
    rcases hl with h | h | h | h <;> rw [h] <;> norm_num
  have h := suggestTPS_sampling_locations fourLayerStack 2
    [10, 11, 12, 13, 14] 20 20 20 (by norm_num)
    (by norm_num [fourLayerStack]) hpos
  exact ⟨h.2.2.1, h.2.2.2⟩

end HeatStack
